import Mathlib

/-!
Shallow embedding of the couchbase-lite-rust wrapper layer.

The repository is an FFI binding: reference-counted handle wrappers around
opaque native pointers, error translation from a native (domain, code) pair
into a typed result, and callback trampolines.  The embedding below models
pointers as natural numbers, the native reference-count state as a function
from pointers to counts, and each wrapper operation as a pure Lean function
translated from the corresponding Rust function in src/.

The error-translation module (error.rs) is not among the provided sources;
its types are modelled from the spec (section 7) where marked.
-/

namespace CBL

/-! ## Native error struct and typed error (error.rs is not in src/) -/

/-- The native error struct: a domain plus an integer code, as passed by
every fallible native call through its out-parameter.  `CBLError::default()`
in the Rust code is the all-zero struct. -/
structure CBLError where
  domain : Nat
  code : Int
  deriving DecidableEq, Repr

def CBLError.default : CBLError := { domain := 0, code := 0 }

/-- Modelled from the spec: error.rs is missing from src/.  Section 7 gives
the taxonomy "not-found, conflict (concurrent write detected), crypto,
transient network condition (mapped from an HTTP-like status), and a generic
native error code/domain pair for anything else". -/
inductive CouchbaseLiteError where
  | NotFound
  | Conflict
  | Crypto
  deriving DecidableEq, Repr

/-- Modelled from the spec: the typed error code carried by the wrapper
`Error` value — either one of the named Couchbase Lite conditions, a
WebSocket/HTTP-like status (used for transient network conditions), or the
generic native domain/code pair. -/
inductive ErrorCode where
  | cbl : CouchbaseLiteError → ErrorCode
  | webSocket : Nat → ErrorCode
  | native : Nat → Int → ErrorCode
  deriving DecidableEq, Repr

/-- The wrapper error value; callbacks.rs constructs it literally as
`Error \x7b code, internal_info \x7d`, so the field layout is taken from src/. -/
structure Error where
  code : ErrorCode
  internal_info : Option Nat
  deriving DecidableEq, Repr

/-- Modelled from the spec: `Error::default()`, the "no error" value that the
encryption callbacks compare against before writing the out-parameter. -/
def Error.default : Error := { code := .native 0 0, internal_info := none }

/-- Modelled from the spec: `Error::cbl_error`, building a typed error from a
named Couchbase Lite condition (used for NotFound and Crypto in src/). -/
def Error.cbl_error (e : CouchbaseLiteError) : Error :=
  { code := .cbl e, internal_info := none }

/-- Modelled from the spec: "a failure produces a typed error value carrying
the native domain/code" — the translation applied by `failure(error)` after a
native call reports an error. -/
def Error.fromNative (e : CBLError) : Error :=
  { code := .native e.domain e.code, internal_info := none }

/-- Modelled from the spec: `Error::new(&CBLError)`, reading the current
native error out-parameter into a typed error (the identity translation on
the carried domain/code; the all-zero struct reads back as `Error.default`). -/
def Error.new (e : CBLError) : Error :=
  if e = CBLError.default then Error.default else Error.fromNative e

/-- `failure(error)` — wrap the translated native error as the Err branch of
a Result. -/
def failure {α : Type} (e : CBLError) : Except Error α :=
  .error (Error.fromNative e)

/-! ## Database::get_document (document.rs) -/

/-- A native pointer; 0 plays the role of the null pointer. -/
abbrev Ptr := Nat

def Ptr.isNull (p : Ptr) : Bool := p == 0

/-- What one invocation of `CBLDatabase_GetMutableDocument` hands back to the
wrapper: the returned document pointer and the state of the error
out-parameter after the call. -/
structure NativeGetDocResult where
  doc : Ptr
  error : CBLError
  deriving DecidableEq, Repr

/-- The wrapper Document handle: holds one native pointer (document.rs). -/
structure Document where
  _ref : Ptr
  deriving Repr

/-- `Document::wrap` — adopt the pointer, no reference-count change. -/
def Document.wrap (r : Ptr) : Document := { _ref := r }

/-- `Database::get_document` (document.rs lines 74–89), as a function of the
native call's outcome: null pointer with non-zero error code becomes
`failure(error)`; null pointer with zero code becomes the NotFound typed
error; a non-null pointer is wrapped and returned as Ok. -/
def get_document (r : NativeGetDocResult) : Except Error Document :=
  if r.doc.isNull then
    if r.error.code ≠ 0 then
      failure r.error
    else
      .error (Error.cbl_error .NotFound)
  else
    .ok (Document.wrap r.doc)

/-! ## Database::in_transaction (database.rs lines 241–258) -/

/-- Observable native calls made by `in_transaction`, in order. -/
inductive TxEvent where
  | beginTx
  | callbackRun
  | endTx (commit : Bool)
  deriving DecidableEq, Repr

/-- Outcome of one native begin/end-transaction call: the returned bool and
the error out-parameter it filled in on failure. -/
structure NativeCallOutcome where
  ok : Bool
  err : CBLError
  deriving DecidableEq, Repr

/-- `Database::in_transaction` (database.rs): begin the transaction (failing
out with the translated error if the native begin fails, without running the
callback); run the user callback; end the transaction with commit equal to
whether the callback succeeded; if the native end fails, return its error
instead of the callback's result.  The second component records the sequence
of native calls and the callback invocation. -/
def in_transaction {T : Type} (beginRes : NativeCallOutcome)
    (cb : Except Error T) (endRes : Bool → NativeCallOutcome) :
    Except Error T × List TxEvent :=
  if !beginRes.ok then
    (failure beginRes.err, [.beginTx])
  else
    let result := cb
    let e := endRes result.isOk
    if !e.ok then
      (failure e.err, [.beginTx, .callbackRun, .endTx result.isOk])
    else
      (result, [.beginTx, .callbackRun, .endTx result.isOk])

/-! ## Reference counting: retain on clone (database.rs, document.rs,
collection.rs, field_encryption.rs, replication/endpoint.rs,
replication/authenticator.rs) -/

/-- The native reference-count state: how many counts are outstanding on each
native pointer. -/
structure RefWorld where
  counts : Ptr → Nat

/-- The native `CBL_Retain` underlying the crate's `retain` helper: increment
the count on the given pointer (the helper returns the pointer unchanged). -/
def retainPtr (w : RefWorld) (p : Ptr) : RefWorld :=
  { counts := fun q => if q = p then w.counts q + 1 else w.counts q }

/-- Database handle: its only field is the native pointer (database.rs). -/
structure Database where
  cbl_ref : Ptr
  deriving DecidableEq, Repr

/-- Collection handle: its only field is the native pointer (collection.rs). -/
structure Collection where
  cbl_ref : Ptr
  deriving DecidableEq, Repr

/-- Scope handle: its only field is the native pointer (collection.rs). -/
structure Scope where
  cbl_ref : Ptr
  deriving DecidableEq, Repr

/-- Encryptable handle (field_encryption.rs). -/
structure Encryptable where
  _ref : Ptr
  deriving DecidableEq, Repr

/-- Endpoint handle: the native pointer plus a cached url
(replication/endpoint.rs). -/
structure Endpoint where
  cbl_ref : Ptr
  url : Option String
  deriving DecidableEq, Repr

/-- Authenticator handle: its only field is the native pointer
(replication/authenticator.rs). -/
structure Authenticator where
  cbl_ref : Ptr
  deriving DecidableEq, Repr

/-- `impl Clone for Database` — `Self::retain(self.get_ref())`. -/
def Database.clone (d : Database) (w : RefWorld) : Database × RefWorld :=
  ({ cbl_ref := d.cbl_ref }, retainPtr w d.cbl_ref)

/-- `impl Clone for Document` — `Document::retain(self._ref)`. -/
def Document.clone (d : Document) (w : RefWorld) : Document × RefWorld :=
  ({ _ref := d._ref }, retainPtr w d._ref)

/-- `impl Clone for Collection` — `Self::retain(self.get_ref())`. -/
def Collection.clone (c : Collection) (w : RefWorld) : Collection × RefWorld :=
  ({ cbl_ref := c.cbl_ref }, retainPtr w c.cbl_ref)

/-- `impl Clone for Scope` — `Self::retain(self.get_ref())`. -/
def Scope.clone (s : Scope) (w : RefWorld) : Scope × RefWorld :=
  ({ cbl_ref := s.cbl_ref }, retainPtr w s.cbl_ref)

/-- `impl Clone for Encryptable` — `retain(self._ref)`. -/
def Encryptable.clone (e : Encryptable) (w : RefWorld) : Encryptable × RefWorld :=
  ({ _ref := e._ref }, retainPtr w e._ref)

/-- `impl Clone for Endpoint` (replication/endpoint.rs lines 46–53) — copies
the pointer and the cached url field; no retain call is made. -/
def Endpoint.clone (e : Endpoint) (w : RefWorld) : Endpoint × RefWorld :=
  ({ cbl_ref := e.cbl_ref, url := e.url }, w)

/-- `impl Clone for Authenticator` (replication/authenticator.rs lines 44–50)
— copies the pointer; no retain call is made. -/
def Authenticator.clone (a : Authenticator) (w : RefWorld) : Authenticator × RefWorld :=
  ({ cbl_ref := a.cbl_ref }, w)

/-! ## Handle equality (derived PartialEq semantics: all fields compared) -/

/-- Derived `PartialEq` on Database: the single pointer field. -/
def Database.eqHandle (a b : Database) : Bool := a.cbl_ref == b.cbl_ref

/-- Derived `PartialEq` on Collection: the single pointer field. -/
def Collection.eqHandle (a b : Collection) : Bool := a.cbl_ref == b.cbl_ref

/-- Derived `PartialEq` on Scope: the single pointer field. -/
def Scope.eqHandle (a b : Scope) : Bool := a.cbl_ref == b.cbl_ref

/-- Derived `PartialEq` on Authenticator: the single pointer field. -/
def Authenticator.eqHandle (a b : Authenticator) : Bool := a.cbl_ref == b.cbl_ref

/-- Derived `PartialEq` on Endpoint compares every field: the pointer and the
cached url (replication/endpoint.rs derives PartialEq on both fields). -/
def Endpoint.eqHandle (a b : Endpoint) : Bool :=
  a.cbl_ref == b.cbl_ref && a.url == b.url

/-! ## Replicator activity level and Replicator::stop
(replication/replicator.rs) -/

/-- Native activity-level constants, in the declaration order of the C enum
mirrored by the generated bindings. -/
def kCBLReplicatorStopped : Nat := 0
def kCBLReplicatorOffline : Nat := 1
def kCBLReplicatorConnecting : Nat := 2
def kCBLReplicatorIdle : Nat := 3
def kCBLReplicatorBusy : Nat := 4

inductive ReplicatorActivityLevel where
  | Stopped
  | Offline
  | Connecting
  | Idle
  | Busy
  deriving DecidableEq, Repr

/-- `impl From<u8> for ReplicatorActivityLevel` (replication/replicator.rs
lines 322–333): the five named constants map to the five levels; `none`
models the `unreachable!()` panic branch hit by any other byte. -/
def activityLevelFromU8 (level : Nat) : Option ReplicatorActivityLevel :=
  if level = kCBLReplicatorStopped then some .Stopped
  else if level = kCBLReplicatorOffline then some .Offline
  else if level = kCBLReplicatorConnecting then some .Connecting
  else if level = kCBLReplicatorIdle then some .Idle
  else if level = kCBLReplicatorBusy then some .Busy
  else none

/-- Observable steps of `Replicator::stop`, in order. -/
inductive StopEvent where
  | addChangeListener
  | stopCall
  | recvWait
  | removeListener
  deriving DecidableEq, Repr

/-- The timeout actually used by `Replicator::stop`:
`timeout_seconds.unwrap_or(10)`. -/
def stopTimeout (timeout_seconds : Option Nat) : Nat := timeout_seconds.getD 10

/-- `Replicator::stop` (replication/replicator.rs lines 170–196) as a trace:
register the temporary change listener; if the current activity is not
Stopped, issue the native stop call and block on the channel receive (whose
outcome `recvOk` is whether the terminal state arrived before the timeout);
finally remove the listener.  Returns the success flag and the event trace. -/
def Replicator.stop (activity : ReplicatorActivityLevel) (recvOk : Bool) :
    Bool × List StopEvent :=
  if activity ≠ ReplicatorActivityLevel.Stopped then
    (recvOk, [.addChangeListener, .stopCall, .recvWait, .removeListener])
  else
    (true, [.addChangeListener, .removeListener])

/-! ## Replication push/pull filter trampolines (replication/callbacks.rs) -/

/-- `kCBLDocumentFlagsDeleted` and `kCBLDocumentFlagsAccessRemoved`: the two
document flag bits of the native enum (bit 0 and bit 1). -/
def DELETED : Nat := 1
def ACCESS_REMOVED : Nat := 2

/-- A replication filter closure: document, is-deleted, is-access-removed. -/
abbrev ReplicationFilter := Document → Bool → Bool → Bool

/-- The filter slots of `ReplicationConfigurationContext`
(replication/callbacks.rs). -/
structure ReplicationConfigurationContext where
  push_filter : Option ReplicationFilter
  pull_filter : Option ReplicationFilter

/-- `read_document_flags` (replication/callbacks.rs line 61): extract the
deleted and access-removed bits. -/
def read_document_flags (flags : Nat) : Bool × Bool :=
  (flags &&& DELETED != 0, flags &&& ACCESS_REMOVED != 0)

/-- `c_replication_push_filter` (replication/callbacks.rs lines 28–44):
`map_or(false, ...)` over the configured push filter. -/
def c_replication_push_filter (ctx : ReplicationConfigurationContext)
    (document : Document) (flags : Nat) : Bool :=
  let fl := read_document_flags flags
  match ctx.push_filter with
  | none => false
  | some callback => callback document fl.1 fl.2

/-- `c_replication_pull_filter` (replication/callbacks.rs lines 45–60):
`map_or(false, ...)` over the configured pull filter. -/
def c_replication_pull_filter (ctx : ReplicationConfigurationContext)
    (document : Document) (flags : Nat) : Bool :=
  let fl := read_document_flags flags
  match ctx.pull_filter with
  | none => false
  | some callback => callback document fl.1 fl.2

/-! ## Property encryption/decryption callbacks (replication/callbacks.rs) -/

/-- The two failure classes a property encryption/decryption closure can
report (replication/callbacks.rs lines 101–105). -/
inductive EncryptionError where
  | Temporary
  | Permanent
  deriving DecidableEq, Repr

abbrev Bytes := List Nat

/-- A native slice result: null, or an owned byte buffer.
`FLSliceResult::null()` in the Rust code is the null variant. -/
inductive FLSliceResult where
  | null
  | alloc (bytes : Bytes)
  deriving DecidableEq, Repr

/-- `FLSliceResult_New(n)` — a freshly allocated (non-null) buffer of n
zero bytes. -/
def FLSliceResult_New (n : Nat) : FLSliceResult := .alloc (List.replicate n 0)

/-- `FLSlice_Copy` — copy the given bytes into an owned (non-null) buffer. -/
def FLSlice_Copy (b : Bytes) : FLSliceResult := .alloc b

/-- Modelled from the spec: the native error domains used by the error
translation (error.rs is not in src/): the Couchbase Lite domain and the
WebSocket domain of the HTTP-like statuses. -/
def kCBLDomain : Nat := 1
def kWebSocketDomain : Nat := 6

/-- Modelled from the spec: the native codes of the named Couchbase Lite
error conditions (error.rs is not in src/). -/
def CouchbaseLiteError.nativeCode : CouchbaseLiteError → Int
  | .NotFound => 7
  | .Conflict => 8
  | .Crypto => 28

/-- Modelled from the spec: `Error::as_cbl_error`, writing a typed error back
into the native (domain, code) struct — the inverse direction of the error
translation, preserving the carried domain/code. -/
def Error.as_cbl_error (e : Error) : CBLError :=
  match e.code with
  | .cbl c => { domain := kCBLDomain, code := c.nativeCode }
  | .webSocket n => { domain := kWebSocketDomain, code := (n : Int) }
  | .native d c => { domain := d, code := c }

/-- A property encryption/decryption closure, with the argument list of the
Rust `PropertyEncryptor`/`PropertyDecryptor` type (the FLDict of properties
is passed as its pointer). -/
abbrev PropertyEncryptor :=
  Option String → Ptr → Option String → Bytes → Option String →
    Option String → Error → Except EncryptionError Bytes

abbrev PropertyDecryptor := PropertyEncryptor

/-- `c_property_encryptor` (replication/callbacks.rs lines 120–180): start
from the incoming native error; a null input slice is a Crypto error with the
empty allocated result; with no configured closure the result is the empty
allocated buffer; a closure Ok result is copied out; a Temporary failure sets
the WebSocket 503 typed error and a Permanent failure the Crypto typed error,
both returning the null slice; finally the typed error, if not the no-error
value, is written back through the native error out-parameter. -/
def c_property_encryptor (property_encryptor : Option PropertyEncryptor)
    (document_id : Option String) (properties : Ptr) (key_path : Option String)
    (input : Option Bytes) (algorithm : Option String) (kid : Option String)
    (cblErrorIn : CBLError) : FLSliceResult × CBLError :=
  let error0 := Error.new cblErrorIn
  match input with
  | some inp =>
    let step : FLSliceResult × Error :=
      match property_encryptor with
      | none => (FLSliceResult_New 0, error0)
      | some callback =>
        match callback document_id properties key_path inp algorithm kid error0 with
        | .ok v => (FLSlice_Copy v, error0)
        | .error .Temporary =>
          (.null, { code := .webSocket 503, internal_info := none })
        | .error .Permanent => (.null, Error.cbl_error .Crypto)
    (step.1, if step.2 ≠ Error.default then step.2.as_cbl_error else cblErrorIn)
  | none =>
    let error := Error.cbl_error .Crypto
    (FLSliceResult_New 0,
      if error ≠ Error.default then error.as_cbl_error else cblErrorIn)

/-- `c_property_decryptor` (replication/callbacks.rs lines 195–255): same
structure as the encryptor trampoline. -/
def c_property_decryptor (property_decryptor : Option PropertyDecryptor)
    (document_id : Option String) (properties : Ptr) (key_path : Option String)
    (input : Option Bytes) (algorithm : Option String) (kid : Option String)
    (cblErrorIn : CBLError) : FLSliceResult × CBLError :=
  let error0 := Error.new cblErrorIn
  match input with
  | some inp =>
    let step : FLSliceResult × Error :=
      match property_decryptor with
      | none => (FLSliceResult_New 0, error0)
      | some callback =>
        match callback document_id properties key_path inp algorithm kid error0 with
        | .ok v => (FLSlice_Copy v, error0)
        | .error .Temporary =>
          (.null, { code := .webSocket 503, internal_info := none })
        | .error .Permanent => (.null, Error.cbl_error .Crypto)
    (step.1, if step.2 ≠ Error.default then step.2.as_cbl_error else cblErrorIn)
  | none =>
    let error := Error.cbl_error .Crypto
    (FLSliceResult_New 0,
      if error ≠ Error.default then error.as_cbl_error else cblErrorIn)

/-! ## Panic-freedom of native value conversions -/

/-- A native string value as handed to the wrapper; `none` is the null
slice. -/
abbrev FLStringModel := Option String

/-- The `.as_str().unwrap()` / `.to_string().unwrap()` step used by
`Document::id` and `Document::properties_as_json`: the identity on the
optional native string, where a `none` outcome marks the panic of `unwrap`
on a null native string. -/
def nativeStringUnwrap (s : FLStringModel) : Option String := s

/-- The native byte value of each activity level, per the generated binding
constants. -/
def ReplicatorActivityLevel.nativeByte : ReplicatorActivityLevel → Nat
  | .Stopped => kCBLReplicatorStopped
  | .Offline => kCBLReplicatorOffline
  | .Connecting => kCBLReplicatorConnecting
  | .Idle => kCBLReplicatorIdle
  | .Busy => kCBLReplicatorBusy

/-! ## Document JSON import/export

Modelled from the spec: the JSON codec lives in the native library ("Document
JSON import/export: documents can be bulk-set or bulk-read via a JSON text
representation, delegated entirely to the native library's JSON codec", spec
section 6), so `CBLDocument_SetJSON` / `CBLDocument_CreateJSON` are modelled
here by a concrete mini codec over flat JSON objects with string, natural
number, boolean and null values (strings without escape sequences). -/

abbrev Chars := List Char

def lbrace : Char := Char.ofNat 123
def rbrace : Char := Char.ofNat 125

inductive JsonVal where
  | str : String → JsonVal
  | num : Nat → JsonVal
  | bool : Bool → JsonVal
  | null
  deriving DecidableEq, Repr

abbrev JsonObj := List (String × JsonVal)

def digitVal? (c : Char) : Option Nat :=
  if c = '0' then some 0
  else if c = '1' then some 1
  else if c = '2' then some 2
  else if c = '3' then some 3
  else if c = '4' then some 4
  else if c = '5' then some 5
  else if c = '6' then some 6
  else if c = '7' then some 7
  else if c = '8' then some 8
  else if c = '9' then some 9
  else none

def isDigitC (c : Char) : Bool := (digitVal? c).isSome

def takeDigits : Chars → Chars × Chars
  | [] => ([], [])
  | c :: rest =>
    if isDigitC c then
      let p := takeDigits rest
      (c :: p.1, p.2)
    else ([], c :: rest)

def digitsToNat (ds : Chars) : Nat :=
  ds.foldl (fun a c => 10 * a + (digitVal? c).getD 0) 0

def digitChar : Nat → Char
  | 0 => '0'
  | 1 => '1'
  | 2 => '2'
  | 3 => '3'
  | 4 => '4'
  | 5 => '5'
  | 6 => '6'
  | 7 => '7'
  | 8 => '8'
  | _ => '9'

def natDigits (n : Nat) : Chars :=
  if _h : n < 10 then [digitChar n]
  else natDigits (n / 10) ++ [digitChar (n % 10)]
termination_by n
decreasing_by
  exact Nat.div_lt_self (by omega) (by omega)

def serializeVal : JsonVal → Chars
  | .str s => '"' :: (s.data ++ ['"'])
  | .num n => natDigits n
  | .bool true => ['t', 'r', 'u', 'e']
  | .bool false => ['f', 'a', 'l', 's', 'e']
  | .null => ['n', 'u', 'l', 'l']

def serializeEntry (kv : String × JsonVal) : Chars :=
  '"' :: (kv.1.data ++ '"' :: ':' :: serializeVal kv.2)

def serializeEntries : JsonObj → Chars
  | [] => []
  | [kv] => serializeEntry kv
  | kv :: rest => serializeEntry kv ++ ',' :: serializeEntries rest

def serializeJsonObject (kvs : JsonObj) : String :=
  ⟨lbrace :: (serializeEntries kvs ++ [rbrace])⟩

/-- Parse the remainder of a quoted string (after the opening quote), up to
the closing quote; no escapes. -/
def parseStrAux : Chars → Option (Chars × Chars)
  | [] => none
  | c :: rest =>
    if c = '"' then some ([], rest)
    else (parseStrAux rest).map fun p => (c :: p.1, p.2)

def parseVal : Chars → Option (JsonVal × Chars)
  | [] => none
  | c :: rest =>
    if c = '"' then
      (parseStrAux rest).map fun p => (JsonVal.str ⟨p.1⟩, p.2)
    else if isDigitC c then
      let p := takeDigits (c :: rest)
      some (.num (digitsToNat p.1), p.2)
    else
      match c :: rest with
      | 't' :: 'r' :: 'u' :: 'e' :: r => some (.bool true, r)
      | 'f' :: 'a' :: 'l' :: 's' :: 'e' :: r => some (.bool false, r)
      | 'n' :: 'u' :: 'l' :: 'l' :: r => some (.null, r)
      | _ => none

/-- Parse one or more comma-separated key/value entries followed by the
closing brace; the fuel bounds the number of entries. -/
def parseEntries : Nat → Chars → Option (JsonObj × Chars)
  | 0, _ => none
  | fuel + 1, input =>
    match input with
    | [] => none
    | c :: rest =>
      if c = '"' then
        match parseStrAux rest with
        | none => none
        | some (k, r1) =>
          match r1 with
          | [] => none
          | c2 :: r2 =>
            if c2 = ':' then
              match parseVal r2 with
              | none => none
              | some (v, r3) =>
                match r3 with
                | [] => none
                | c3 :: r4 =>
                  if c3 = ',' then
                    match parseEntries fuel r4 with
                    | none => none
                    | some (kvs, r5) => some ((String.mk k, v) :: kvs, r5)
                  else if c3 = rbrace then some ([(String.mk k, v)], r4)
                  else none
            else none
      else none

def parseObjChars (input : Chars) : Option (JsonObj × Chars) :=
  match input with
  | [] => none
  | c :: rest =>
    if c = lbrace then
      match rest with
      | [] => none
      | d :: rest2 =>
        if d = rbrace then some ([], rest2)
        else parseEntries (d :: rest2).length (d :: rest2)
    else none

def parseJsonObject (j : String) : Option JsonObj :=
  match parseObjChars j.data with
  | some (kvs, []) => some kvs
  | _ => none

/-! ## Document state (native side modelled from the spec) -/

/-- Modelled from the spec: the in-memory native document state behind a
`CBLDocument` pointer — its id, its local sequence ("`sequence()` is 0 before
the first save", spec section 8), and its property storage. -/
structure DocState where
  doc_id : String
  sequence : Nat
  props : JsonObj
  deriving DecidableEq, Repr

/-- Modelled from the spec: `CBLDocument_CreateWithID` creates a new empty
in-memory document with the given id, not yet added to a database. -/
def CBLDocument_CreateWithID (id : String) : DocState :=
  { doc_id := id, sequence := 0, props := [] }

/-- `Document::new_with_id` (document.rs lines 263–265): wraps the document
freshly created by `CBLDocument_CreateWithID`. -/
def new_with_id (id : String) : DocState := CBLDocument_CreateWithID id

/-- `Document::id` (document.rs lines 284–286): forwards to
`CBLDocument_ID`. -/
def DocState.id (d : DocState) : String := d.doc_id

/-- `Document::set_properties_as_json` (document.rs lines 328–334): forwards
to `CBLDocument_SetJSON`, which replaces the property storage with the parsed
object on success and reports a native error on invalid JSON (the concrete
domain/code pair is modelled). -/
def set_properties_as_json (d : DocState) (json : String) : Except Error DocState :=
  match parseJsonObject json with
  | some kvs => .ok { d with props := kvs }
  | none => .error (Error.fromNative { domain := 4, code := 3 })

/-- `Document::properties_as_json` (document.rs lines 322–325): forwards to
`CBLDocument_CreateJSON`, serializing the property storage. -/
def properties_as_json (d : DocState) : String := serializeJsonObject d.props

/-! ## Well-formedness and round-trip lemmas for the mini codec -/

def strWf (s : String) : Prop := '"' ∉ s.data

def JsonVal.wf : JsonVal → Prop
  | .str s => strWf s
  | _ => True

def objWf (kvs : JsonObj) : Prop := ∀ kv ∈ kvs, strWf kv.1 ∧ kv.2.wf

def nextNotDigit : Chars → Prop
  | [] => True
  | c :: _ => isDigitC c = false

theorem parseStrAux_append (s : Chars) (h : '"' ∉ s) (rest : Chars) :
    parseStrAux (s ++ '"' :: rest) = some (s, rest) := by
  induction s with
  | nil => simp [parseStrAux]
  | cons c cs ih =>
    simp only [List.mem_cons, not_or] at h
    obtain ⟨h1, h2⟩ := h
    have hc : ¬ (c = '"') := fun hq => h1 hq.symm
    have hih := ih h2
    simp [parseStrAux, hc, hih]

theorem parseStrAux_no_quote :
    ∀ input s rest, parseStrAux input = some (s, rest) → '"' ∉ s := by
  intro input
  induction input with
  | nil => intro s rest h; simp [parseStrAux] at h
  | cons c cs ih =>
    intro s rest h
    simp only [parseStrAux] at h
    split at h
    · next hc =>
      simp only [Option.some.injEq, Prod.mk.injEq] at h
      obtain ⟨h1, _⟩ := h
      subst h1
      exact List.not_mem_nil _
    · next hc =>
      cases hps : parseStrAux cs with
      | none => rw [hps] at h; simp at h
      | some p =>
        rw [hps] at h
        simp at h
        obtain ⟨h1, _⟩ := h
        subst h1
        intro hm
        rcases List.mem_cons.mp hm with hq | hq
        · exact hc hq.symm
        · exact ih p.1 p.2 hps hq

theorem digitVal_digitChar : ∀ d, d < 10 → digitVal? (digitChar d) = some d := by
  decide

theorem natDigits_ne_nil (n : Nat) : natDigits n ≠ [] := by
  rw [natDigits]
  split
  · simp
  · simp

theorem natDigits_digits (n : Nat) : ∀ c ∈ natDigits n, isDigitC c = true := by
  induction n using Nat.strong_induction_on with
  | _ n ih =>
    rw [natDigits]
    split
    · next h =>
      intro c hc
      simp only [List.mem_singleton] at hc
      subst hc
      simp [isDigitC, digitVal_digitChar n h]
    · next h =>
      intro c hc
      rcases List.mem_append.mp hc with hc | hc
      · exact ih (n / 10) (Nat.div_lt_self (by omega) (by omega)) c hc
      · simp only [List.mem_singleton] at hc
        subst hc
        have h10 : n % 10 < 10 := Nat.mod_lt _ (by omega)
        simp [isDigitC, digitVal_digitChar _ h10]

theorem digitsToNat_natDigits (n : Nat) : digitsToNat (natDigits n) = n := by
  induction n using Nat.strong_induction_on with
  | _ n ih =>
    rw [natDigits]
    split
    · next h =>
      simp [digitsToNat, digitVal_digitChar n h]
    · next h =>
      have h10 : n % 10 < 10 := Nat.mod_lt _ (by omega)
      have ihd := ih (n / 10) (Nat.div_lt_self (by omega) (by omega))
      simp only [digitsToNat, List.foldl_append] at ihd ⊢
      simp [ihd, digitVal_digitChar _ h10]
      omega

theorem takeDigits_split (ds : Chars) (hds : ∀ c ∈ ds, isDigitC c = true)
    (rest : Chars) (hrest : nextNotDigit rest) :
    takeDigits (ds ++ rest) = (ds, rest) := by
  induction ds with
  | nil =>
    cases rest with
    | nil => rfl
    | cons c r =>
      have hc : isDigitC c = false := hrest
      simp [takeDigits, hc]
  | cons c cs ih =>
    have hc := hds c (List.mem_cons_self _ _)
    simp [takeDigits, hc, ih (fun x hx => hds x (List.mem_cons_of_mem _ hx))]

theorem parseVal_serializeVal (v : JsonVal) (hwf : v.wf) (rest : Chars)
    (hrest : nextNotDigit rest) :
    parseVal (serializeVal v ++ rest) = some (v, rest) := by
  cases v with
  | str s =>
    have hs : '"' ∉ s.data := hwf
    show parseVal ('"' :: (s.data ++ ['"'] ++ rest)) = some (.str s, rest)
    have : s.data ++ ['"'] ++ rest = s.data ++ '"' :: rest := by simp
    rw [this]
    simp only [parseVal, if_pos rfl, parseStrAux_append s.data hs rest,
      Option.map]
    simp
  | num n =>
    cases hnd : natDigits n with
    | nil => exact absurd hnd (natDigits_ne_nil n)
    | cons d ds =>
      have hall : ∀ c ∈ d :: ds, isDigitC c = true := by
        rw [← hnd]; exact natDigits_digits n
      have hd := hall d (List.mem_cons_self _ _)
      have hdq : ¬ (d = '"') := by
        intro hq
        rw [hq] at hd
        exact absurd hd (by decide)
      have htake : takeDigits (d :: (ds ++ rest)) = (d :: ds, rest) := by
        have := takeDigits_split (d :: ds) hall rest hrest
        simpa using this
      have hnum : digitsToNat (d :: ds) = n := by
        rw [← hnd]; exact digitsToNat_natDigits n
      show parseVal (natDigits n ++ rest) = some (.num n, rest)
      rw [hnd]
      simp only [List.cons_append, parseVal, if_neg hdq, hd, if_pos, htake,
        hnum]
  | bool b => cases b <;> rfl
  | null => rfl

theorem parseVal_wf : ∀ input v rest, parseVal input = some (v, rest) → v.wf := by
  intro input v rest h
  cases input with
  | nil => simp [parseVal] at h
  | cons c cs =>
    simp only [parseVal] at h
    split at h
    · cases hps : parseStrAux cs with
      | none => rw [hps] at h; simp at h
      | some p =>
        rw [hps] at h
        simp at h
        obtain ⟨h1, _⟩ := h
        rw [← h1]
        exact parseStrAux_no_quote cs p.1 p.2 hps
    · split at h
      · simp at h
        obtain ⟨h1, _⟩ := h
        rw [← h1]
        trivial
      · split at h <;> simp at h <;> rw [← h.1] <;> trivial

theorem serializeEntries_cons_head (kv : String × JsonVal) (tl : JsonObj) :
    ∃ t, serializeEntries (kv :: tl) = '"' :: t := by
  cases tl with
  | nil => exact ⟨_, rfl⟩
  | cons kv2 tl2 => exact ⟨_, rfl⟩

theorem serializeEntries_length (kvs : JsonObj) :
    kvs.length ≤ (serializeEntries kvs).length := by
  induction kvs with
  | nil => simp [serializeEntries]
  | cons kv tl ih =>
    cases tl with
    | nil => simp [serializeEntries, serializeEntry]
    | cons kv2 tl2 =>
      show (kv :: kv2 :: tl2).length ≤
        (serializeEntry kv ++ ',' :: serializeEntries (kv2 :: tl2)).length
      simp only [List.length_cons, List.length_append, serializeEntry]
      simp only [List.length_cons] at ih ⊢
      omega

theorem parseEntries_serialize :
    ∀ (kvs : JsonObj), kvs ≠ [] → objWf kvs →
      ∀ (rest : Chars) (fuel : Nat), kvs.length ≤ fuel →
      parseEntries fuel (serializeEntries kvs ++ rbrace :: rest) =
        some (kvs, rest) := by
  intro kvs
  induction kvs with
  | nil => intro h; exact absurd rfl h
  | cons kv tl ih =>
    intro _ hwf rest fuel hfuel
    obtain ⟨hk, hv⟩ := hwf kv (List.mem_cons_self _ _)
    cases fuel with
    | zero => simp at hfuel
    | succ f =>
      cases tl with
      | nil =>
        have hinput : serializeEntries [kv] ++ rbrace :: rest =
            '"' :: (kv.1.data ++ '"' :: ':' ::
              (serializeVal kv.2 ++ rbrace :: rest)) := by
          simp [serializeEntries, serializeEntry]
        rw [hinput]
        simp only [parseEntries, if_pos rfl]
        rw [parseStrAux_append kv.1.data hk]
        simp only [if_pos rfl]
        rw [parseVal_serializeVal kv.2 hv (rbrace :: rest)
          (by show isDigitC rbrace = false; decide)]
        simp only [if_neg (by decide : ¬ (rbrace = ',')), if_pos rfl]
        simp
      | cons kv2 tl2 =>
        have hne2 : kv2 :: tl2 ≠ [] := by simp
        have hwf2 : objWf (kv2 :: tl2) :=
          fun x hx => hwf x (List.mem_cons_of_mem _ hx)
        have hfuel2 : (kv2 :: tl2).length ≤ f := by
          simp only [List.length_cons] at hfuel ⊢
          omega
        have hinput : serializeEntries (kv :: kv2 :: tl2) ++ rbrace :: rest =
            '"' :: (kv.1.data ++ '"' :: ':' :: (serializeVal kv.2 ++
              ',' :: (serializeEntries (kv2 :: tl2) ++ rbrace :: rest))) := by
          simp [serializeEntries, serializeEntry]
        rw [hinput]
        simp only [parseEntries, if_pos rfl]
        rw [parseStrAux_append kv.1.data hk]
        simp only [if_pos rfl]
        rw [parseVal_serializeVal kv.2 hv
          (',' :: (serializeEntries (kv2 :: tl2) ++ rbrace :: rest))
          (by show isDigitC ',' = false; decide)]
        simp only [if_pos rfl]
        rw [ih hne2 hwf2 rest f hfuel2]
        simp

theorem parseEntries_wf :
    ∀ fuel input kvs rest, parseEntries fuel input = some (kvs, rest) →
      objWf kvs := by
  intro fuel
  induction fuel with
  | zero => intro input kvs rest h; simp [parseEntries] at h
  | succ f ih =>
    intro input kvs rest h
    cases input with
    | nil => simp [parseEntries] at h
    | cons c cs =>
      simp only [parseEntries] at h
      split at h
      · split at h
        · simp at h
        · next k r1 heq =>
          cases r1 with
          | nil => simp at h
          | cons c2 r2 =>
            simp only [] at h
            split at h
            · split at h
              · simp at h
              · next v r3 heq2 =>
                cases r3 with
                | nil => simp at h
                | cons c3 r4 =>
                  simp only [] at h
                  split at h
                  · split at h
                    · simp at h
                    · next kvs0 r5 heq3 =>
                      simp only [Option.some.injEq, Prod.mk.injEq] at h
                      obtain ⟨h1, _⟩ := h
                      subst h1
                      intro kv hkv
                      rcases List.mem_cons.mp hkv with hkv | hkv
                      · rw [hkv]
                        exact ⟨parseStrAux_no_quote cs k (c2 :: r2) heq,
                          parseVal_wf r2 v (c3 :: r4) heq2⟩
                      · exact ih r4 kvs0 r5 heq3 kv hkv
                  · split at h
                    · simp only [Option.some.injEq, Prod.mk.injEq] at h
                      obtain ⟨h1, _⟩ := h
                      subst h1
                      intro kv hkv
                      rcases List.mem_cons.mp hkv with hkv | hkv
                      · rw [hkv]
                        exact ⟨parseStrAux_no_quote cs k (c2 :: r2) heq,
                          parseVal_wf r2 v (c3 :: r4) heq2⟩
                      · exact absurd hkv (List.not_mem_nil _)
                    · simp at h
            · simp at h
      · simp at h

theorem parseObjChars_wf (input : Chars) (kvs : JsonObj) (rest : Chars)
    (h : parseObjChars input = some (kvs, rest)) : objWf kvs := by
  cases input with
  | nil => simp [parseObjChars] at h
  | cons c cs =>
    cases cs with
    | nil => simp [parseObjChars] at h
    | cons d cs2 =>
      simp only [parseObjChars] at h
      split at h
      · split at h
        · simp only [Option.some.injEq, Prod.mk.injEq] at h
          obtain ⟨h1, _⟩ := h
          subst h1
          intro kv hkv
          exact absurd hkv (List.not_mem_nil _)
        · exact parseEntries_wf _ _ kvs rest h
      · simp at h

theorem parseJsonObject_wf (j : String) (kvs : JsonObj)
    (h : parseJsonObject j = some kvs) : objWf kvs := by
  unfold parseJsonObject at h
  split at h
  · next kvs2 heq =>
    simp only [Option.some.injEq] at h
    subst h
    exact parseObjChars_wf _ _ _ heq
  · simp at h

theorem parseObjChars_serialize (kvs : JsonObj) (hwf : objWf kvs) :
    parseObjChars (lbrace :: (serializeEntries kvs ++ [rbrace])) =
      some (kvs, []) := by
  cases kvs with
  | nil => rfl
  | cons kv tl =>
    obtain ⟨t, ht⟩ := serializeEntries_cons_head kv tl
    have hlen : (kv :: tl).length ≤
        (serializeEntries (kv :: tl) ++ [rbrace]).length := by
      calc (kv :: tl).length ≤ (serializeEntries (kv :: tl)).length :=
            serializeEntries_length _
        _ ≤ (serializeEntries (kv :: tl)).length + 1 := Nat.le_succ _
        _ = (serializeEntries (kv :: tl) ++ [rbrace]).length := by simp
    have hpe := parseEntries_serialize (kv :: tl) (by simp) hwf []
      ((serializeEntries (kv :: tl) ++ [rbrace]).length) hlen
    rw [ht] at hpe ⊢
    simp only [List.cons_append] at hpe ⊢
    simp only [parseObjChars, if_pos rfl,
      if_neg (by decide : ¬ (('"' : Char) = rbrace))]
    simpa using hpe

/-- Round trip of the modelled codec: serializing a well-formed object and
parsing it back yields the same key/value pairs. -/
theorem parseJsonObject_serialize (kvs : JsonObj) (hwf : objWf kvs) :
    parseJsonObject (serializeJsonObject kvs) = some kvs := by
  unfold parseJsonObject serializeJsonObject
  rw [show (String.mk (lbrace :: (serializeEntries kvs ++ [rbrace]))).data =
    lbrace :: (serializeEntries kvs ++ [rbrace]) from rfl]
  rw [parseObjChars_serialize kvs hwf]

/-! ## Theorems for get_document and in_transaction -/

/-- C1: `Database::get_document` surfaces a non-zero native error code as a
typed error carrying the native domain/code; it returns the distinct NotFound
error exactly when the native call hands back a null pointer with error code
0 (and NotFound is never the translation of a generic native failure); a
non-null pointer yields Ok wrapping that pointer. -/
theorem get_document_failure_semantics (r : NativeGetDocResult) :
    (r.doc.isNull = true → r.error.code ≠ 0 →
      get_document r =
        .error { code := .native r.error.domain r.error.code, internal_info := none }) ∧
    (get_document r = .error (Error.cbl_error .NotFound) ↔
      r.doc.isNull = true ∧ r.error.code = 0) ∧
    (∀ e : CBLError, Error.cbl_error .NotFound ≠ Error.fromNative e) ∧
    (r.doc.isNull = false → get_document r = .ok (Document.wrap r.doc)) := by
  obtain ⟨d, e⟩ := r
  refine ⟨?_, ?_, ?_, ?_⟩
  · intro hnull hcode
    simp [get_document, hnull, hcode, failure, Error.fromNative]
  · constructor
    · intro h
      by_cases hnull : Ptr.isNull d
      · by_cases hcode : e.code = 0
        · exact ⟨hnull, hcode⟩
        · simp [get_document, hnull, hcode, failure, Error.fromNative,
            Error.cbl_error] at h
      · simp [get_document, hnull] at h
    · rintro ⟨hnull, hcode⟩
      simp only [] at hnull hcode
      simp [get_document, hnull, hcode]
  · intro e₀
    simp [Error.cbl_error, Error.fromNative]
  · intro hnn
    simp [get_document, hnn]

theorem get_document_failure_semantics_witness :
    get_document { doc := 0, error := { domain := 1, code := 5 } } =
      .error { code := .native 1 5, internal_info := none } ∧
    get_document { doc := 0, error := { domain := 0, code := 0 } } =
      .error (Error.cbl_error .NotFound) ∧
    get_document { doc := 7, error := { domain := 0, code := 0 } } =
      .ok (Document.wrap 7) :=
  ⟨(get_document_failure_semantics _).1 (by decide) (by decide),
   (get_document_failure_semantics
      { doc := 0, error := { domain := 0, code := 0 } }).2.1.mpr (by decide),
   (get_document_failure_semantics
      { doc := 7, error := { domain := 0, code := 0 } }).2.2.2 (by decide)⟩

/-- C2: `Database::in_transaction` emits the native begin call before the
user operation; when begin succeeds the native end call always follows the
operation with commit equal to whether the operation returned Ok; when begin
fails its translated error is returned and the operation never runs; when
the native end call fails, its translated error replaces the operation's
result; otherwise the operation's result is returned. -/
theorem in_transaction_semantics {T : Type} (beginRes : NativeCallOutcome)
    (cb : Except Error T) (endRes : Bool → NativeCallOutcome) :
    (beginRes.ok = false →
      in_transaction beginRes cb endRes = (failure beginRes.err, [.beginTx])) ∧
    (beginRes.ok = true →
      (in_transaction beginRes cb endRes).2 =
        [.beginTx, .callbackRun, .endTx cb.isOk] ∧
      ((endRes cb.isOk).ok = false →
        (in_transaction beginRes cb endRes).1 = failure (endRes cb.isOk).err) ∧
      ((endRes cb.isOk).ok = true →
        (in_transaction beginRes cb endRes).1 = cb)) := by
  refine ⟨?_, ?_⟩
  · intro hb
    simp [in_transaction, hb]
  · intro hb
    refine ⟨?_, ?_, ?_⟩
    · by_cases he : (endRes cb.isOk).ok <;> simp [in_transaction, hb, he]
    · intro he
      simp [in_transaction, hb, he]
    · intro he
      simp [in_transaction, hb, he]

theorem in_transaction_semantics_witness :
    (in_transaction (T := Unit) { ok := false, err := { domain := 2, code := 3 } }
        (.ok ()) (fun _ => { ok := true, err := CBLError.default }) =
      (failure { domain := 2, code := 3 }, [.beginTx])) ∧
    ((in_transaction (T := Unit) { ok := true, err := CBLError.default }
        (.ok ()) (fun _ => { ok := true, err := CBLError.default })).2 =
      [.beginTx, .callbackRun, .endTx true]) ∧
    ((in_transaction (T := Unit) { ok := true, err := CBLError.default }
        (.error (Error.cbl_error .Conflict))
        (fun c => if c then { ok := true, err := CBLError.default }
                  else { ok := false, err := { domain := 1, code := 9 } })).1 =
      failure { domain := 1, code := 9 }) :=
  ⟨(in_transaction_semantics _ _ _).1 rfl,
   ((in_transaction_semantics { ok := true, err := CBLError.default }
      (Except.ok ()) (fun _ => { ok := true, err := CBLError.default })).2 rfl).1,
   ((in_transaction_semantics { ok := true, err := CBLError.default }
      (Except.error (Error.cbl_error .Conflict))
      (fun c => if c then { ok := true, err := CBLError.default }
                else { ok := false, err := { domain := 1, code := 9 } })).2
      rfl).2.1 rfl⟩

/-! ## Theorems for clone/retain, handle equality, stop, and filters -/

/-- C3 counterexample: cloning an `Endpoint` does not touch the native
reference count — with one count outstanding on pointer 1, the count after
the clone is still 1, not 2 as the claim requires. -/
theorem endpoint_clone_retains_nothing :
    (Endpoint.clone { cbl_ref := 1, url := none } { counts := fun _ => 1 }).2.counts 1 = 1 ∧
    ¬ ((Endpoint.clone { cbl_ref := 1, url := none }
          { counts := fun _ => 1 }).2.counts 1 =
        ({ counts := fun _ => 1 } : RefWorld).counts 1 + 1) := by
  exact ⟨rfl, by decide⟩

/-- C3 amended: clones of Database, Document, Collection, Scope and
Encryptable wrap the same pointer and increment the native count on that
pointer by exactly one, leaving every other count unchanged; clones of
Endpoint and Authenticator copy their fields (same pointer) and make no
retain call, leaving the reference-count state untouched. -/
theorem clone_retain_semantics (w : RefWorld) (db : Database) (doc : Document)
    (col : Collection) (sc : Scope) (enc : Encryptable) (ep : Endpoint)
    (au : Authenticator) :
    ((db.clone w).1 = db ∧
      (db.clone w).2.counts db.cbl_ref = w.counts db.cbl_ref + 1 ∧
      ∀ q, q ≠ db.cbl_ref → (db.clone w).2.counts q = w.counts q) ∧
    ((doc.clone w).1 = doc ∧
      (doc.clone w).2.counts doc._ref = w.counts doc._ref + 1 ∧
      ∀ q, q ≠ doc._ref → (doc.clone w).2.counts q = w.counts q) ∧
    ((col.clone w).1 = col ∧
      (col.clone w).2.counts col.cbl_ref = w.counts col.cbl_ref + 1 ∧
      ∀ q, q ≠ col.cbl_ref → (col.clone w).2.counts q = w.counts q) ∧
    ((sc.clone w).1 = sc ∧
      (sc.clone w).2.counts sc.cbl_ref = w.counts sc.cbl_ref + 1 ∧
      ∀ q, q ≠ sc.cbl_ref → (sc.clone w).2.counts q = w.counts q) ∧
    ((enc.clone w).1 = enc ∧
      (enc.clone w).2.counts enc._ref = w.counts enc._ref + 1 ∧
      ∀ q, q ≠ enc._ref → (enc.clone w).2.counts q = w.counts q) ∧
    ((ep.clone w).1 = ep ∧ (ep.clone w).2 = w) ∧
    ((au.clone w).1 = au ∧ (au.clone w).2 = w) := by
  refine ⟨⟨rfl, ?_, ?_⟩, ⟨rfl, ?_, ?_⟩, ⟨rfl, ?_, ?_⟩, ⟨rfl, ?_, ?_⟩,
    ⟨rfl, ?_, ?_⟩, ⟨rfl, rfl⟩, ⟨rfl, rfl⟩⟩ <;>
    simp [Database.clone, Document.clone, Collection.clone, Scope.clone,
      Encryptable.clone, retainPtr]

theorem clone_retain_semantics_witness :
    (Database.clone { cbl_ref := 5 } { counts := fun _ => 1 }).2.counts 5 =
      ({ counts := fun _ => 1 } : RefWorld).counts 5 + 1 ∧
    (Database.clone { cbl_ref := 5 } { counts := fun _ => 1 }).2.counts 3 =
      ({ counts := fun _ => 1 } : RefWorld).counts 3 ∧
    (Authenticator.clone { cbl_ref := 5 } { counts := fun _ => 1 }).2 =
      ({ counts := fun _ => 1 } : RefWorld) :=
  ⟨(clone_retain_semantics { counts := fun _ => 1 } { cbl_ref := 5 }
      { _ref := 0 } { cbl_ref := 0 } { cbl_ref := 0 } { _ref := 0 }
      { cbl_ref := 0, url := none } { cbl_ref := 5 }).1.2.1,
   (clone_retain_semantics { counts := fun _ => 1 } { cbl_ref := 5 }
      { _ref := 0 } { cbl_ref := 0 } { cbl_ref := 0 } { _ref := 0 }
      { cbl_ref := 0, url := none } { cbl_ref := 5 }).1.2.2 3 (by decide),
   (clone_retain_semantics { counts := fun _ => 1 } { cbl_ref := 5 }
      { _ref := 0 } { cbl_ref := 0 } { cbl_ref := 0 } { _ref := 0 }
      { cbl_ref := 0, url := none } { cbl_ref := 5 }).2.2.2.2.2.2.2⟩

/-- C6 counterexample: two Endpoint handles wrapping the same native pointer
but with different cached url fields compare unequal, so equality is not
pointer identity for every public handle type. -/
theorem endpoint_eq_not_pointer_identity :
    ({ cbl_ref := 1, url := some "a" } : Endpoint).cbl_ref =
      ({ cbl_ref := 1, url := none } : Endpoint).cbl_ref ∧
    Endpoint.eqHandle { cbl_ref := 1, url := some "a" }
      { cbl_ref := 1, url := none } = false :=
  ⟨rfl, rfl⟩

/-- C6 amended: for Database, Collection, Scope and Authenticator — whose
only field is the native pointer — derived equality holds exactly on pointer
identity; Endpoint derived equality compares the pointer and the cached url
field; Document implements no equality at all (document.rs derives only
Debug). -/
theorem handle_eq_semantics (a b : Database) (c d : Collection) (s t : Scope)
    (x y : Authenticator) (e f : Endpoint) :
    (Database.eqHandle a b = true ↔ a.cbl_ref = b.cbl_ref) ∧
    (Collection.eqHandle c d = true ↔ c.cbl_ref = d.cbl_ref) ∧
    (Scope.eqHandle s t = true ↔ s.cbl_ref = t.cbl_ref) ∧
    (Authenticator.eqHandle x y = true ↔ x.cbl_ref = y.cbl_ref) ∧
    (Endpoint.eqHandle e f = true ↔ e.cbl_ref = f.cbl_ref ∧ e.url = f.url) := by
  refine ⟨?_, ?_, ?_, ?_, ?_⟩ <;>
    simp [Database.eqHandle, Collection.eqHandle, Scope.eqHandle,
      Authenticator.eqHandle, Endpoint.eqHandle]

/-- C5: `Replicator::stop` registers the temporary change listener first,
blocks on the channel receive exactly when the replicator is not already
Stopped (with timeout defaulting to 10 seconds), and removes the listener as
the last step on every exit path; the returned flag is true without waiting
when already Stopped, and otherwise is the receive outcome. -/
theorem stop_scoped_listener (activity : ReplicatorActivityLevel)
    (recvOk : Bool) :
    stopTimeout none = 10 ∧ (∀ s : Nat, stopTimeout (some s) = s) ∧
    (Replicator.stop activity recvOk).2.head? = some .addChangeListener ∧
    (Replicator.stop activity recvOk).2.getLast? = some .removeListener ∧
    (StopEvent.recvWait ∈ (Replicator.stop activity recvOk).2 ↔
      activity ≠ .Stopped) ∧
    (activity = .Stopped →
      Replicator.stop activity recvOk =
        (true, [.addChangeListener, .removeListener])) ∧
    (activity ≠ .Stopped →
      Replicator.stop activity recvOk =
        (recvOk, [.addChangeListener, .stopCall, .recvWait, .removeListener])) := by
  refine ⟨rfl, fun s => rfl, ?_, ?_, ?_, ?_, ?_⟩ <;>
    cases activity <;> simp [Replicator.stop]

theorem stop_scoped_listener_witness :
    Replicator.stop .Stopped true =
      (true, [.addChangeListener, .removeListener]) ∧
    Replicator.stop .Busy false =
      (false, [.addChangeListener, .stopCall, .recvWait, .removeListener]) :=
  ⟨(stop_scoped_listener .Stopped true).2.2.2.2.2.1 rfl,
   (stop_scoped_listener .Busy false).2.2.2.2.2.2 (by decide)⟩

/-- C10: the push and pull filter trampolines return false when no
corresponding closure is configured, and otherwise return exactly the
closure's value on the document and the deleted/access-removed flag bits. -/
theorem replication_filter_trampolines (ctx : ReplicationConfigurationContext)
    (document : Document) (flags : Nat) :
    (ctx.push_filter = none →
      c_replication_push_filter ctx document flags = false) ∧
    (∀ f, ctx.push_filter = some f →
      c_replication_push_filter ctx document flags =
        f document (flags &&& DELETED != 0) (flags &&& ACCESS_REMOVED != 0)) ∧
    (ctx.pull_filter = none →
      c_replication_pull_filter ctx document flags = false) ∧
    (∀ f, ctx.pull_filter = some f →
      c_replication_pull_filter ctx document flags =
        f document (flags &&& DELETED != 0) (flags &&& ACCESS_REMOVED != 0)) := by
  refine ⟨?_, ?_, ?_, ?_⟩
  · intro h
    simp [c_replication_push_filter, h]
  · intro f h
    simp [c_replication_push_filter, h, read_document_flags]
  · intro h
    simp [c_replication_pull_filter, h]
  · intro f h
    simp [c_replication_pull_filter, h, read_document_flags]

theorem replication_filter_trampolines_witness :
    c_replication_push_filter { push_filter := none, pull_filter := none }
      (Document.wrap 3) 1 = false ∧
    c_replication_pull_filter
      { push_filter := none,
        pull_filter := some fun _ isDel _ => isDel } (Document.wrap 3) 1 =
      (fun (_ : Document) (isDel : Bool) (_ : Bool) => isDel) (Document.wrap 3)
        (1 &&& DELETED != 0) (1 &&& ACCESS_REMOVED != 0) :=
  ⟨(replication_filter_trampolines _ _ _).1 rfl,
   (replication_filter_trampolines _ _ _).2.2.2 _ rfl⟩

/-- C4: when a configured property encryption or decryption closure reports a
Temporary failure, the trampoline writes the WebSocket 503 error through the
native out-parameter; a Permanent failure writes the Crypto error; the two
are distinct native (domain, code) pairs, and in both cases the returned
slice result is null. -/
theorem property_codec_failure_classes
    (callback : PropertyEncryptor) (document_id : Option String)
    (properties : Ptr) (key_path : Option String) (inp : Bytes)
    (algorithm : Option String) (kid : Option String) (errIn : CBLError) :
    (callback document_id properties key_path inp algorithm kid
        (Error.new errIn) = .error .Temporary →
      c_property_encryptor (some callback) document_id properties key_path
          (some inp) algorithm kid errIn =
        (.null, { domain := kWebSocketDomain, code := 503 }) ∧
      c_property_decryptor (some callback) document_id properties key_path
          (some inp) algorithm kid errIn =
        (.null, { domain := kWebSocketDomain, code := 503 })) ∧
    (callback document_id properties key_path inp algorithm kid
        (Error.new errIn) = .error .Permanent →
      c_property_encryptor (some callback) document_id properties key_path
          (some inp) algorithm kid errIn =
        (.null, { domain := kCBLDomain,
                  code := CouchbaseLiteError.Crypto.nativeCode }) ∧
      c_property_decryptor (some callback) document_id properties key_path
          (some inp) algorithm kid errIn =
        (.null, { domain := kCBLDomain,
                  code := CouchbaseLiteError.Crypto.nativeCode })) ∧
    ({ domain := kWebSocketDomain, code := 503 } : CBLError) ≠
      { domain := kCBLDomain, code := CouchbaseLiteError.Crypto.nativeCode } := by
  refine ⟨?_, ?_, by decide⟩
  · intro h
    constructor <;>
      simp [c_property_encryptor, c_property_decryptor, h, Error.default,
        Error.as_cbl_error, kWebSocketDomain]
  · intro h
    constructor <;>
      simp [c_property_encryptor, c_property_decryptor, h, Error.default,
        Error.as_cbl_error, Error.cbl_error, kCBLDomain,
        CouchbaseLiteError.nativeCode]

theorem property_codec_failure_classes_witness :
    c_property_encryptor
      (some fun _ _ _ _ _ _ _ => .error .Temporary) none 0 none
      (some [1, 2]) none none CBLError.default =
      (.null, { domain := kWebSocketDomain, code := 503 }) ∧
    c_property_decryptor
      (some fun _ _ _ _ _ _ _ => .error .Permanent) none 0 none
      (some [1, 2]) none none CBLError.default =
      (.null, { domain := kCBLDomain,
                code := CouchbaseLiteError.Crypto.nativeCode }) :=
  ⟨((property_codec_failure_classes (fun _ _ _ _ _ _ _ => .error .Temporary)
      none 0 none [1, 2] none none CBLError.default).1 rfl).1,
   ((property_codec_failure_classes (fun _ _ _ _ _ _ _ => .error .Permanent)
      none 0 none [1, 2] none none CBLError.default).2.1 rfl).2⟩

/-- C9: for every activity-level byte the native side may deliver (one of the
five binding constants) the conversion reaches a named level, never the
`unreachable!()` branch — indeed each level's native byte converts back to
that level — and for every non-null native string the unwrap step taken by
`Document::id` and `Document::properties_as_json` succeeds rather than
panicking. -/
theorem no_panic_on_native_range (b : Nat) (lvl : ReplicatorActivityLevel)
    (s : String) :
    (b = kCBLReplicatorStopped ∨ b = kCBLReplicatorOffline ∨
        b = kCBLReplicatorConnecting ∨ b = kCBLReplicatorIdle ∨
        b = kCBLReplicatorBusy →
      (activityLevelFromU8 b).isSome = true) ∧
    activityLevelFromU8 lvl.nativeByte = some lvl ∧
    nativeStringUnwrap (some s) = some s := by
  refine ⟨?_, ?_, rfl⟩
  · rintro (rfl | rfl | rfl | rfl | rfl) <;> decide
  · cases lvl <;> decide

theorem no_panic_on_native_range_witness :
    (activityLevelFromU8 kCBLReplicatorBusy).isSome = true ∧
    activityLevelFromU8 ReplicatorActivityLevel.Busy.nativeByte =
      some .Busy ∧
    nativeStringUnwrap (some "doc-id") = some "doc-id" :=
  ⟨(no_panic_on_native_range kCBLReplicatorBusy .Busy "doc-id").1
      (Or.inr (Or.inr (Or.inr (Or.inr rfl)))),
   (no_panic_on_native_range kCBLReplicatorBusy .Busy "doc-id").2.1,
   (no_panic_on_native_range kCBLReplicatorBusy .Busy "doc-id").2.2⟩

/-- C7: a document created by `new_with_id(id)` has `id()` equal to the
supplied id and `sequence()` equal to 0 at creation — and the in-memory
property mutation operation (the only modelled non-save mutation) never
changes the id or the sequence, so the sequence stays 0 until a save. -/
theorem new_with_id_id_and_sequence (id : String) (d d2 : DocState)
    (j : String) :
    (new_with_id id).id = id ∧
    (new_with_id id).sequence = 0 ∧
    (set_properties_as_json d j = .ok d2 →
      d2.sequence = d.sequence ∧ d2.id = d.id) := by
  refine ⟨rfl, rfl, ?_⟩
  intro h
  unfold set_properties_as_json at h
  split at h
  · simp only [Except.ok.injEq] at h
    subst h
    exact ⟨rfl, rfl⟩
  · simp at h

theorem new_with_id_id_and_sequence_witness :
    (new_with_id "doc1").id = "doc1" ∧
    (new_with_id "doc1").sequence = 0 ∧
    ({ doc_id := "doc1", sequence := 0, props := [] } : DocState).sequence =
      (new_with_id "doc1").sequence ∧
    ({ doc_id := "doc1", sequence := 0, props := [] } : DocState).id =
      (new_with_id "doc1").id :=
  ⟨(new_with_id_id_and_sequence "doc1" (new_with_id "doc1")
      { doc_id := "doc1", sequence := 0, props := [] } "\x7b\x7d").1,
   (new_with_id_id_and_sequence "doc1" (new_with_id "doc1")
      { doc_id := "doc1", sequence := 0, props := [] } "\x7b\x7d").2.1,
   (new_with_id_id_and_sequence "doc1" (new_with_id "doc1")
      { doc_id := "doc1", sequence := 0, props := [] } "\x7b\x7d").2.2 rfl⟩

/-- C8: when `set_properties_as_json` accepts a JSON object string and
returns Ok, re-serializing via `properties_as_json` yields a JSON string
denoting exactly the same key/value pairs as the input (equal parses), and
the stored properties are the parsed pairs. -/
theorem json_properties_round_trip (d d2 : DocState) (j : String)
    (h : set_properties_as_json d j = .ok d2) :
    parseJsonObject (properties_as_json d2) = parseJsonObject j ∧
    ∃ kvs, parseJsonObject j = some kvs ∧ d2.props = kvs := by
  unfold set_properties_as_json at h
  split at h
  · next kvs heq =>
    simp only [Except.ok.injEq] at h
    subst h
    have hwf := parseJsonObject_wf j kvs heq
    constructor
    · show parseJsonObject (serializeJsonObject kvs) = _
      rw [parseJsonObject_serialize kvs hwf, heq]
    · exact ⟨kvs, heq, rfl⟩
  · simp at h

theorem json_properties_round_trip_witness :
    parseJsonObject (properties_as_json
      { doc_id := "w", sequence := 0,
        props := [("a", JsonVal.num 1), ("b", JsonVal.bool true)] }) =
      parseJsonObject "\x7b\"a\":1,\"b\":true\x7d" ∧
    ∃ kvs, parseJsonObject "\x7b\"a\":1,\"b\":true\x7d" = some kvs ∧
      ({ doc_id := "w", sequence := 0,
         props := [("a", JsonVal.num 1), ("b", JsonVal.bool true)] } :
        DocState).props = kvs :=
  json_properties_round_trip (new_with_id "w")
    { doc_id := "w", sequence := 0,
      props := [("a", JsonVal.num 1), ("b", JsonVal.bool true)] }
    "\x7b\"a\":1,\"b\":true\x7d" (by rfl)

end CBL
